import Mathlib

/-!
Verification development for the SensoricaAgroptimum time-series
aggregation and phenology-index engine.

The repository computes Chill Hours/Units and Growing Degree Days from
per-sensor temperature readings.  This file shallowly embeds the relevant
source functions:

* JavaScript numbers are embedded as exact rationals (`ℚ`); the sources
  only use arithmetic that is exact on the inputs considered.
* Timestamps are embedded as seconds (`ℕ`); a calendar day is the day
  index `t / 86400` (the `YYYY-MM-DD` string representation used by the
  sources is order-isomorphic to the day index, and `DATE(dt)` of a
  MySQL DATETIME corresponds to this quotient).
* MySQL coerces a `'YYYY-MM-DD'` string parameter to the DATETIME
  `YYYY-MM-DD 00:00:00`; the embedded range filters reflect this.
* `Math.round(x*10)/10` (rounding to one decimal, half towards +∞) is
  embedded as `round1`.
-/

/-- `Math.round(q * 10) / 10` — JS `Math.round` is `⌊x + 1/2⌋`
(half rounds towards +∞).  Used by every route for 1-decimal rounding. -/
def round1 (q : ℚ) : ℚ := ((⌊q * 10 + 1/2⌋ : ℤ) : ℚ) / 10

/-- JS `Math.trunc`: rounds towards zero. -/
def jsTrunc (q : ℚ) : ℤ := if 0 ≤ q then ⌊q⌋ else ⌈q⌉

/-- JS `String.prototype.toLowerCase` (ASCII fragment, which covers all
column names and sensor names occurring in the sources). -/
def strLower (s : String) : String := String.mk (s.toList.map Char.toLower)

/-- JS `String.prototype.trim` (ASCII whitespace fragment). -/
def strTrim (s : String) : String :=
  String.mk (((s.toList.dropWhile Char.isWhitespace).reverse.dropWhile
    Char.isWhitespace).reverse)

/-- JS `String.prototype.includes` on the underlying character lists:
`subAux l p` is true iff `p` occurs as a contiguous sublist of `l`. -/
def subAux : List Char → List Char → Bool
  | [], p => p.isEmpty
  | l@(_ :: t), p => p.isPrefixOf l || subAux t p

/-- JS `hay.includes(pat)`. -/
def containsSub (hay pat : String) : Bool := subAux hay.toList pat.toList

/-- `pickColumn(columns, candidates)` from
`src/app/api/farms/[farmId]/gdd/route.ts` (also verbatim in the
chill-hours route and in `src/unnamed/part_000`/`part_001`): for each
candidate in order, return the first column whose lower-cased name equals
the lower-cased candidate **or contains it as a substring**. -/
def pickColumn (columns : List String) : List String → Option String
  | [] => none
  | cand :: rest =>
    match columns.find? (fun col =>
        strLower col == strLower cand || containsSub (strLower col) (strLower cand)) with
    | some col => some col
    | none => pickColumn columns rest

/-- Temperature-column candidates used by all routes. -/
def tempCandidates : List String := ["temperature", "temperatura", "temp"]

/-- Date-column candidates used by the GDD and Chill routes
(`["datetime", "fecha", "timestamp", "date", "time"]` — note `fecha`
is second). -/
def dateCandidates : List String := ["datetime", "fecha", "timestamp", "date", "time"]

/-- The exact-match pass over the priority list
`["datetime","timestamp","date","fecha","time"]`: the loop
`for p of priority { find(c => c.toLowerCase() === p) }` of
`pickDateColumn` in `src/unnamed/part_002`.  The claim's wording
("exact match preferred over substring match" over the same list) has
the identical exact pass, so it is shared by `specDatePick`. -/
def dateExactPick (cols : List String) : Option String :=
  (["datetime", "timestamp", "date", "fecha", "time"]).findSome?
    (fun p => cols.find? (fun c => strLower c == p))

/-- `pickDateColumn` from `src/unnamed/part_002`: first the exact
(case-insensitive) pass `dateExactPick`, then a heuristic pass returning
the first **column** containing any of the tokens
datetime/fecha/date/timestamp/time (note: ordered by column, not by
token priority). -/
def pickDateColumn (cols : List String) : Option String :=
  match dateExactPick cols with
  | some c => some c
  | none =>
    cols.find? (fun col =>
      containsSub (strLower col) "datetime" || containsSub (strLower col) "fecha" ||
      containsSub (strLower col) "date" || containsSub (strLower col) "timestamp" ||
      containsSub (strLower col) "time")

/-- The claim/spec wording for date-column selection (refinement model):
"chosen by priority list `["datetime","timestamp","date","fecha","time"]`
with exact match preferred over substring match" — one exact pass over
the priority list (identical to `dateExactPick`), then one substring
pass over the same list in the same **token** order. -/
def specDatePick (cols : List String) : Option String :=
  match dateExactPick cols with
  | some c => some c
  | none =>
    (["datetime", "timestamp", "date", "fecha", "time"]).findSome?
      (fun p => cols.find? (fun c => containsSub (strLower c) p))

/-- `isSoilSensorByColumns` from `src/unnamed/part_001` (also
`part_002`): true iff some column name equals or contains one of the
soil-signal tokens. -/
def soilSignals : List String :=
  ["conductivity", "conductividad", "ec", "ece", "soil", "soil_moisture",
   "soilmoisture", "vwc", "smtc", "moisture", "humedad_suelo", "water_content"]

/-- See `soilSignals`. -/
def isSoilSensorByColumns (columnNames : List String) : Bool :=
  let lower := columnNames.map strLower
  soilSignals.any (fun sig => lower.any (fun c => c == sig || containsSub c sig))

/-- `getAllowedSoilSensorsAllowlist` from `src/unnamed/part_001`: the
CSV environment variable `HF_ALLOWED_SOIL_SENSORS` if set and non-blank,
otherwise the default one-element list `["Parcela 4.2"]`.  The
environment is an external input, passed here as an `Option String`. -/
def getAllowedSoilSensorsAllowlist (env : Option String) : List String :=
  match env with
  | some raw =>
    if strTrim raw ≠ "" then ((raw.splitOn ",").map strTrim).filter (fun s => s ≠ "")
    else ["Parcela 4.2"]
  | none => ["Parcela 4.2"]

/-- `isAllowedSoilSensor` from `src/unnamed/part_001`: trimmed,
case-insensitive membership of the sensor name in the allowlist. -/
def isAllowedSoilSensor (allowlist : List String) (sensorName : String) : Bool :=
  let s := strLower (strTrim sensorName)
  allowlist.any (fun a => strLower (strTrim a) == s)

/-- `isValidISODate` from `src/unnamed/part_000`: the regular expression
`^\d{4}-\d{2}-\d{2}$`. -/
def isValidISODate (s : String) : Bool :=
  match s.toList with
  | [y1, y2, y3, y4, h1, m1, m2, h2, d1, d2] =>
    y1.isDigit && y2.isDigit && y3.isDigit && y4.isDigit && h1 == '-' &&
    m1.isDigit && m2.isDigit && h2 == '-' && d1.isDigit && d2.isDigit
  | _ => false

/-- Numeric value of an ASCII digit. -/
def digitVal (c : Char) : ℕ := c.toNat - '0'.toNat

/-- Value of a digit string (most significant first); `[]` counts as 0,
as in JS where `Number("5.")` is `5` and `Number(".5")` is `0.5`. -/
def digitsToNat (l : List Char) : ℕ := l.foldl (fun n c => 10 * n + digitVal c) 0

/-- Split off a (possibly empty) leading run of digits. -/
def spanDigits (l : List Char) : List Char × List Char :=
  (l.takeWhile Char.isDigit, l.dropWhile Char.isDigit)

/-- Model of the JS `Number(string)` conversion on the fragment relevant
to this repository: trimmed empty string is `0`; an optionally signed
decimal literal is its exact value; everything else is `none`
(representing a non-finite result, i.e. `NaN`).  `Number(null)` is `0`
and is handled at each call site. -/
def jsNumber (s : String) : Option ℚ :=
  let t := strTrim s
  if t = "" then some 0 else
  let core : List Char × ℚ :=
    match t.toList with
    | '-' :: r => (r, -1)
    | '+' :: r => (r, 1)
    | r => (r, 1)
  let (intPart, rest1) := spanDigits core.1
  match rest1 with
  | [] => if intPart.isEmpty then none else some (core.2 * (digitsToNat intPart : ℚ))
  | '.' :: rest2 =>
    let (fracPart, rest3) := spanDigits rest2
    if rest3.isEmpty && !(intPart.isEmpty && fracPart.isEmpty) then
      some (core.2 * ((digitsToNat intPart : ℚ) +
        (digitsToNat fracPart : ℚ) / (10 ^ fracPart.length)))
    else none
  | _ => none

/-- `safeInt` from `src/unnamed/part_001`: `null`/empty is the fallback,
a non-finite parse is the fallback, otherwise `Math.max(min,
Math.min(max, Math.trunc(n)))`. -/
def safeInt (raw : Option String) (fallback lo hi : ℤ) : ℤ :=
  match raw with
  | none => fallback
  | some s =>
    if s = "" then fallback
    else
      match jsNumber s with
      | none => fallback
      | some q => max lo (min hi (jsTrunc q))

/-- `safeSampleMinutes` from `src/unnamed/part_001`: note there is **no**
`!raw` guard — `Number(null) = 0`, so an absent parameter flows into the
clamp as `0`. -/
def safeSampleMinutes (raw : Option String) : ℤ :=
  match (match raw with | none => some 0 | some s => jsNumber s) with
  | none => 10
  | some q => max 1 (min 60 (jsTrunc q))

/-- The half-open reading filter
`dateCol >= 'start' AND dateCol < 'end + 1 day'` used by
`src/unnamed/part_000` (GDD, via `endExclusive = addDaysISO(endDate,1)`)
and `src/unnamed/part_001` (Chill delta/fixed, via
`DATE_ADD(?, INTERVAL 1 DAY)`), for day indices `s ≤ e` and a reading
timestamp `t` in seconds. -/
def halfOpenFilter (s e t : ℕ) : Bool := decide (s * 86400 ≤ t ∧ t < (e + 1) * 86400)

/-- The `dateCol BETWEEN 'start' AND 'end'` reading filter used by
`src/app/api/farms/[farmId]/chill-hours/route.ts` (Utah) and
`src/app/api/farms/[farmId]/gdd/route.ts`; MySQL coerces the date
strings to midnight, so the upper bound is `e` at 00:00:00, inclusive. -/
def betweenFilter (s e t : ℕ) : Bool := decide (s * 86400 ≤ t ∧ t ≤ e * 86400)

/-- `utahHourlyUnits` from `src/lib/db.ts` (the SQL `utahUnitsSQL` of the
chill-hours route is the same CASE expression). -/
def utahHourlyUnits (tc : ℚ) : ℚ :=
  if tc < 1.4 then 0
  else if tc < 2.4 then 0.5
  else if tc < 9.1 then 1
  else if tc < 12.4 then 0.5
  else if tc < 15.9 then 0
  else if tc < 18.0 then -0.5
  else -1

/-- `utahUnitsForSample` from `src/lib/db.ts`. -/
def utahUnitsForSample (tc : ℚ) (sampleMinutes : ℚ) : ℚ :=
  utahHourlyUnits tc * (sampleMinutes / 60)

/-- The claim's wording of the Utah step function (refinement model):
seven bands with values 0, 0.5, 1, 0.5, 0, −0.5, −1 between the
thresholds 1.4/2.4/9.1/12.4/15.9/18.0 °C, every band's upper boundary
exclusive, the lower inclusive. -/
def utahUnitsSpec (tc : ℚ) : ℚ :=
  if tc < 1.4 then 0
  else if 1.4 ≤ tc ∧ tc < 2.4 then 0.5
  else if 2.4 ≤ tc ∧ tc < 9.1 then 1
  else if 9.1 ≤ tc ∧ tc < 12.4 then 0.5
  else if 12.4 ≤ tc ∧ tc < 15.9 then 0
  else if 15.9 ≤ tc ∧ tc < 18.0 then -0.5
  else -1

/-- `calculateGDD` from `src/lib/db.ts`: pairwise daily
`max(0, (tmin+tmax)/2 - base)`, summed, rounded once at the end. -/
def calculateGDD (minTemps maxTemps : List ℚ) (baseTemp : ℚ) : ℚ :=
  round1 (((minTemps.zip maxTemps).map
    (fun p => max 0 ((p.1 + p.2) / 2 - baseTemp))).sum)

/-- The per-day GDD value computed by both GDD routes from a day's
`tmin`/`tmax`: `Math.round(Math.max(0, (tmin+tmax)/2 - base) * 10)/10`. -/
def gddDailyValue (tmin tmax baseTemp : ℚ) : ℚ :=
  round1 (max 0 ((tmin + tmax) / 2 - baseTemp))

/-- One sensor reading: timestamp in seconds, temperature in °C. -/
abbrev Reading := ℕ × ℚ

/-- `DATE(dt)`: the calendar day index of a timestamp. -/
def dayOf (t : ℕ) : ℕ := t / 86400

/-- Insert into an ascending list (used to embed the
`sort((a,b) => a[0].localeCompare(b[0]))` ascending date sort; day
indices are order-isomorphic to `YYYY-MM-DD` strings). -/
def insertAsc (x : ℕ) : List ℕ → List ℕ
  | [] => [x]
  | y :: t => if x ≤ y then x :: y :: t else y :: insertAsc x t

/-- Ascending sort by repeated insertion. -/
def sortAsc (l : List ℕ) : List ℕ := l.foldr insertAsc []

/-- The distinct day indices present in a reading list, ascending
(`GROUP BY DATE(dt) ... ORDER BY day ASC`). -/
def daysOf (rs : List Reading) : List ℕ := sortAsc ((rs.map (fun r => dayOf r.1)).dedup)

/-- The window-function subquery of the Chill "delta" model
(`src/unnamed/part_001`): each row keeps its timestamp and temperature
and gains `delta_s = TIMESTAMPDIFF(SECOND, LAG(dt) OVER (ORDER BY dt),
dt)`; the first row's `delta_s` is NULL (`none`). -/
def lagDeltas (rs : List Reading) : List (ℕ × ℚ × Option ℤ) :=
  match rs with
  | [] => []
  | r0 :: rest =>
    (r0.1, r0.2, none) ::
      (rest.zip rs).map (fun pc => (pc.1.1, pc.1.2, some ((pc.1.1 : ℤ) - (pc.2.1 : ℤ))))

/-- `deltaSecondsContributionSQL` from `src/unnamed/part_001`:
`CASE WHEN temp >= 0 AND temp <= 7.2 THEN
LEAST(GREATEST(COALESCE(delta_s, 0), 0), maxGapSeconds) ELSE 0 END`. -/
def deltaContribution (cap : ℤ) (temp : ℚ) (delta : Option ℤ) : ℤ :=
  if 0 ≤ temp ∧ temp ≤ 7.2 then min (max (delta.getD 0) 0) cap else 0

/-- The contribution of the `i`-th row (0 outside the list). -/
def deltaContribAt (cap : ℤ) (rs : List Reading) (i : ℕ) : ℤ :=
  match (lagDeltas rs).get? i with
  | some x => deltaContribution cap x.2.1 x.2.2
  | none => 0

/-- `SUM(deltaSecondsContributionSQL) ... GROUP BY DATE(dt)`: total
chill seconds credited to day `d`. -/
def deltaDaySeconds (cap : ℤ) (rs : List Reading) (d : ℕ) : ℤ :=
  (((lagDeltas rs).filter (fun x => dayOf x.1 = d)).map
    (fun x => deltaContribution cap x.2.1 x.2.2)).sum

/-- The per-day safety mapping of `src/unnamed/part_001` lines 403–419:
`Math.max(0, Math.min(24, hours))`, then 1-decimal rounding. -/
def clampDaily (hours : ℚ) : ℚ := round1 (max 0 (min 24 hours))

/-- Per-sensor daily Chill series, "delta" mode (`src/unnamed/part_001`):
for each day, credited seconds / 3600, clamped to [0, 24], rounded. -/
def chillDeltaDailySeries (cap : ℤ) (rs : List Reading) : List (ℕ × ℚ) :=
  (daysOf rs).map (fun d => (d, clampDaily ((deltaDaySeconds cap rs d : ℚ) / 3600)))

/-- `fixedContributionSQL` summed per day: every row with temperature in
`[0, 7.2]` contributes `hoursPerSample` hours. -/
def fixedDayHours (hoursPerSample : ℚ) (rs : List Reading) (d : ℕ) : ℚ :=
  ((rs.filter (fun r => dayOf r.1 = d)).map
    (fun r => if 0 ≤ r.2 ∧ r.2 ≤ 7.2 then hoursPerSample else 0)).sum

/-- Per-sensor daily Chill series, "fixed" mode (`src/unnamed/part_001`). -/
def chillFixedDailySeries (hoursPerSample : ℚ) (rs : List Reading) : List (ℕ × ℚ) :=
  (daysOf rs).map (fun d => (d, clampDaily (fixedDayHours hoursPerSample rs d)))

/-- `SUM(utahUnitsSQL * hoursPerSample) ... GROUP BY DATE(dt)` from the
chill-hours (Utah) route. -/
def utahDayUnits (sampleMinutes : ℚ) (rs : List Reading) (d : ℕ) : ℚ :=
  ((rs.filter (fun r => dayOf r.1 = d)).map
    (fun r => utahHourlyUnits r.2 * (sampleMinutes / 60))).sum

/-- Per-sensor daily Utah series
(`src/app/api/farms/[farmId]/chill-hours/route.ts` lines 129–138):
1-decimal rounding, then clamp to 0 unless `allowNegative`. -/
def utahDailySeries (sampleMinutes : ℚ) (allowNegative : Bool) (rs : List Reading) :
    List (ℕ × ℚ) :=
  (daysOf rs).map (fun d =>
    (d, let raw := round1 (utahDayUnits sampleMinutes rs d);
        if allowNegative then raw else max 0 raw))

/-- One `merged.set(date, {sum, count})` update of the JS `Map` used by
every merge loop: new keys are appended (JS `Map` preserves insertion
order), existing keys accumulate. -/
def upsert : List (ℕ × ℚ × ℕ) → ℕ → ℚ → List (ℕ × ℚ × ℕ)
  | [], d, v => [(d, v, 1)]
  | (d', s, c) :: t, d, v =>
    if d' = d then (d', s + v, c + 1) :: t else (d', s, c) :: upsert t d v

/-- The double loop `for (const serie of perSensorSeries) for (const p of
serie) { ... }` building the merge `Map`. -/
def buildMerged (series : List (List (ℕ × ℚ))) : List (ℕ × ℚ × ℕ) :=
  series.foldl (fun m s => s.foldl (fun m p => upsert m p.1 p.2) m) []

/-- `merged.get(d) || {sum: 0, count: 0}`. -/
def mapGet (m : List (ℕ × ℚ × ℕ)) (d : ℕ) : ℚ × ℕ :=
  match m with
  | [] => (0, 0)
  | (d', s, c) :: t => if d' = d then (s, c) else mapGet t d

/-- The keys of the merge map, in insertion order. -/
def mapKeys (m : List (ℕ × ℚ × ℕ)) : List ℕ := m.map (fun e => e.1)

/-- Farm-level merged daily series by **mean**, as in both GDD routes and
the Utah chill route: sort dates ascending, value
`Math.round((v.sum / Math.max(1, v.count)) * 10) / 10`. -/
def mergeMeanDaily (series : List (List (ℕ × ℚ))) : List (ℕ × ℚ) :=
  (sortAsc (mapKeys (buildMerged series))).map (fun d =>
    (d, round1 ((mapGet (buildMerged series) d).1 /
      max 1 (((mapGet (buildMerged series) d).2 : ℚ)))))

/-- Farm-level merged daily series by **sum**, as in
`src/unnamed/part_001` lines 490–495 (`dailyUnits: round1(v.sum)` — the
count is not used). -/
def mergeSumDaily (series : List (List (ℕ × ℚ))) : List (ℕ × ℚ) :=
  (sortAsc (mapKeys (buildMerged series))).map (fun d =>
    (d, round1 (mapGet (buildMerged series) d).1))

/-- The cumulative scan `cum = round1(cum + d.daily)` of every route,
starting from `cum`; emits `(date, daily, cumulative)`. -/
def cumulateFrom (cum : ℚ) : List (ℕ × ℚ) → List (ℕ × ℚ × ℚ)
  | [] => []
  | (d, v) :: t =>
    let c := round1 (cum + v)
    (d, v, c) :: cumulateFrom c t

/-- The cumulative scan starting from 0 (`let cum = 0`). -/
def cumulate (l : List (ℕ × ℚ)) : List (ℕ × ℚ × ℚ) := cumulateFrom 0 l

/-- Full farm-level Chill series, "delta" mode (`src/unnamed/part_001`):
per-sensor daily series, merged by sum, then the rounded cumulative. -/
def chillDeltaFarmSeries (cap : ℤ) (sensors : List (List Reading)) : List (ℕ × ℚ × ℚ) :=
  cumulate (mergeSumDaily (sensors.map (chillDeltaDailySeries cap)))

/-- Full farm-level Chill series, "fixed" mode (`src/unnamed/part_001`). -/
def chillFixedFarmSeries (hoursPerSample : ℚ) (sensors : List (List Reading)) :
    List (ℕ × ℚ × ℚ) :=
  cumulate (mergeSumDaily (sensors.map (chillFixedDailySeries hoursPerSample)))

/-- Full farm-level Utah Chill series
(`src/app/api/farms/[farmId]/chill-hours/route.ts`): per-sensor daily
series, merged by mean, then the rounded cumulative. -/
def utahFarmSeries (sampleMinutes : ℚ) (allowNegative : Bool)
    (sensors : List (List Reading)) : List (ℕ × ℚ × ℚ) :=
  cumulate (mergeMeanDaily (sensors.map (utahDailySeries sampleMinutes allowNegative)))

/-- All temperatures of a day (`GROUP BY DATE(dt)` group members). -/
def dayTemps (rs : List Reading) (d : ℕ) : List ℚ :=
  (rs.filter (fun r => dayOf r.1 = d)).map (fun r => r.2)

/-- SQL `MIN` over a group (groups are nonempty; `[]` defaults to 0). -/
def listMin : List ℚ → ℚ
  | [] => 0
  | x :: t => t.foldl min x

/-- SQL `MAX` over a group. -/
def listMax : List ℚ → ℚ
  | [] => 0
  | x :: t => t.foldl max x

/-- Per-sensor daily GDD series of both GDD routes: group readings by
day, take `tmin`/`tmax`, emit `round1(max 0 ((tmin+tmax)/2 - base))`. -/
def gddDailySeries (rs : List Reading) (baseTemp : ℚ) : List (ℕ × ℚ) :=
  (daysOf rs).map (fun d =>
    (d, gddDailyValue (listMin (dayTemps rs d)) (listMax (dayTemps rs d)) baseTemp))

/-- The per-sensor record fields of the Chill delta/fixed route that the
soil/exception policy determines, plus the daily series the sensor
contributes to the farm merge (`none` when the sensor is skipped — a
skipped sensor is never pushed onto `perSensorSeries`). -/
structure SensorOutcome where
  skippedReason : Option String
  isSoilSensor : Bool
  includedByException : Bool
  series : Option (List (ℕ × ℚ))
deriving DecidableEq

/-- The per-sensor head of the Chill delta/fixed route loop
(`src/unnamed/part_001` lines 285–334 and, for a processed sensor, the
"delta" aggregation): soil sensors are skipped with reason
`"sensor_soil_or_conductivity"` unless allowlisted; then temperature and
date columns are required; otherwise the sensor is aggregated. -/
def chillProcessSensor (allowlist : List String) (name : String) (cols : List String)
    (cap : ℤ) (rs : List Reading) : SensorOutcome :=
  let soil := isSoilSensorByColumns cols
  let allowed := soil && isAllowedSoilSensor allowlist name
  if soil && !allowed then
    ⟨some "sensor_soil_or_conductivity", true, false, none⟩
  else
    match pickColumn cols tempCandidates, pickColumn cols dateCandidates with
    | some _, some _ => ⟨none, soil, allowed, some (chillDeltaDailySeries cap rs)⟩
    | _, _ => ⟨some "missing_temp_or_date", soil, allowed, none⟩

/-- The whole farm pipeline of the Chill delta route: process each
sensor, keep only the series of non-skipped sensors, merge by sum and
accumulate. -/
def chillFarmFromSensors (allowlist : List String) (cap : ℤ)
    (sensors : List (String × List String × List Reading)) : List (ℕ × ℚ × ℚ) :=
  cumulate (mergeSumDaily
    ((sensors.map (fun s => chillProcessSensor allowlist s.1 s.2.1 cap s.2.2)).filterMap
      (fun o => o.series)))

/-- `farms` from `src/lib/db.ts`. -/
def farms : List String :=
  ["Casa_Olmo", "Finca_Antequera", "Valle_Hermoso", "Venta_la_Cuesta"]

/-- The query parameters of the GDD endpoints that validation inspects
(`none` = parameter absent from the URL). -/
structure GddQuery where
  farmId : String
  baseTemp : Option String
  range : Option String
  startDate : Option String
  endDate : Option String

/-- The validation prefix of `GET` in `src/unnamed/part_000` (the GDD
route with custom-range support), up to the point where database work
begins: default base 7.2; `Number(baseTemp)` must be finite (else 400);
the farm must be known (else 400); a custom range requires two
`YYYY-MM-DD` dates (else 400).  `.ok` carries the accepted base
temperature and the custom range, if any. -/
def gddValidate (req : GddQuery) : Except ℕ (ℚ × Option (String × String)) :=
  let baseTempQ : Option ℚ :=
    match req.baseTemp with
    | none => some 7.2
    | some raw => jsNumber raw
  match baseTempQ with
  | none => .error 400
  | some bt =>
    if farms.contains req.farmId then
      if req.range.getD "campaign" = "custom" then
        match req.startDate, req.endDate with
        | some s, some e =>
          if s ≠ "" && e ≠ "" && isValidISODate s && isValidISODate e then
            .ok (bt, some (s, e))
          else .error 400
        | _, _ => .error 400
      else .ok (bt, none)
    else .error 400

/-- `baseTemp` handling of `GET` in
`src/app/api/farms/[farmId]/gdd/route.ts` lines 37–40: a **falsy** raw
value (absent or empty) yields the default 7; any other string is passed
through `Number` with no finiteness check (`none` = `NaN` flows on). -/
def gddSimpleBaseTemp (raw : Option String) : Option ℚ :=
  match raw with
  | none => some 7
  | some "" => some 7
  | some s => jsNumber s

/-- The validation prefix of the simpler GDD route: only the farm name is
checked; the base temperature is accepted unconditionally. -/
def gddSimpleValidate (farmId : String) (baseTempRaw : Option String) :
    Except ℕ (Option ℚ) :=
  if farms.contains farmId then .ok (gddSimpleBaseTemp baseTempRaw)
  else .error 400

/-- Total of the entries a single sensor series holds for day `d`
(one entry per day in series produced by the day-grouping, but the lemma
layer does not need that). -/
def sumListAt (s : List (ℕ × ℚ)) (d : ℕ) : ℚ :=
  ((s.filter (fun p => p.1 = d)).map Prod.snd).sum

/-- Number of entries a single sensor series holds for day `d`. -/
def countListAt (s : List (ℕ × ℚ)) (d : ℕ) : ℕ :=
  (s.filter (fun p => p.1 = d)).length

/-- Total over all sensors of the daily values recorded for day `d`. -/
def sumAt (series : List (List (ℕ × ℚ))) (d : ℕ) : ℚ :=
  (series.map (fun s => sumListAt s d)).sum

/-- Number of sensor entries recorded for day `d` across all sensors. -/
def countAt (series : List (List (ℕ × ℚ))) (d : ℕ) : ℕ :=
  (series.map (fun s => countListAt s d)).sum

theorem round1_mono {a b : ℚ} (h : a ≤ b) : round1 a ≤ round1 b := by
  unfold round1
  have h1 : (⌊a * 10 + 1/2⌋ : ℤ) ≤ ⌊b * 10 + 1/2⌋ := by
    apply Int.floor_le_floor
    linarith
  have h2 : ((⌊a * 10 + 1/2⌋ : ℤ) : ℚ) ≤ ((⌊b * 10 + 1/2⌋ : ℤ) : ℚ) := by exact_mod_cast h1
  linarith

theorem round1_nonneg {q : ℚ} (h : 0 ≤ q) : 0 ≤ round1 q := by
  unfold round1
  have : (0 : ℤ) ≤ ⌊q * 10 + 1/2⌋ := by
    apply Int.floor_nonneg.mpr
    linarith
  positivity

theorem round1_tenth (k : ℤ) : round1 ((k : ℚ) / 10) = (k : ℚ) / 10 := by
  unfold round1
  have : (k : ℚ) / 10 * 10 + 1/2 = (1 : ℚ)/2 + k := by ring
  rw [this, Int.floor_add_int]
  norm_num

theorem round1_is_tenth (q : ℚ) : ∃ k : ℤ, round1 q = (k : ℚ) / 10 :=
  ⟨⌊q * 10 + 1/2⌋, rfl⟩

theorem round1_add_nonneg {c v : ℚ} (hc : ∃ k : ℤ, c = (k : ℚ) / 10) (hv : 0 ≤ v) :
    c ≤ round1 (c + v) := by
  obtain ⟨k, rfl⟩ := hc
  calc (k : ℚ) / 10 = round1 ((k : ℚ) / 10) := (round1_tenth k).symm
    _ ≤ round1 ((k : ℚ) / 10 + v) := round1_mono (by linarith)

theorem mapGet_upsert (m : List (ℕ × ℚ × ℕ)) (d : ℕ) (v : ℚ) (e : ℕ) :
    mapGet (upsert m d v) e =
      if d = e then ((mapGet m e).1 + v, (mapGet m e).2 + 1) else mapGet m e := by
  induction m with
  | nil =>
    by_cases h : d = e <;> simp [upsert, mapGet, h]
  | cons hd tl ih =>
    obtain ⟨d1, s, c⟩ := hd
    by_cases h1 : d1 = d
    · subst h1
      by_cases h2 : d1 = e <;> simp [upsert, mapGet, h2]
    · by_cases h2 : d1 = e
      · subst h2
        have hde : ¬ d = d1 := fun hh => h1 hh.symm
        simp [upsert, mapGet, h1, hde]
      · simp [upsert, mapGet, h1, h2, ih]

theorem sumListAt_cons (p : ℕ × ℚ) (s : List (ℕ × ℚ)) (d : ℕ) :
    sumListAt (p :: s) d = if p.1 = d then p.2 + sumListAt s d else sumListAt s d := by
  by_cases h : p.1 = d <;> simp [sumListAt, List.filter_cons, h]

theorem countListAt_cons (p : ℕ × ℚ) (s : List (ℕ × ℚ)) (d : ℕ) :
    countListAt (p :: s) d =
      if p.1 = d then countListAt s d + 1 else countListAt s d := by
  by_cases h : p.1 = d <;> simp [countListAt, List.filter_cons, h]

theorem mapGet_foldl_one (s : List (ℕ × ℚ)) (m : List (ℕ × ℚ × ℕ)) (d : ℕ) :
    mapGet (s.foldl (fun m p => upsert m p.1 p.2) m) d =
      ((mapGet m d).1 + sumListAt s d, (mapGet m d).2 + countListAt s d) := by
  induction s generalizing m with
  | nil => simp [sumListAt, countListAt]
  | cons p t ih =>
    rw [List.foldl_cons, ih, mapGet_upsert, sumListAt_cons, countListAt_cons]
    by_cases h : p.1 = d
    · simp [h]
      constructor
      · ring
      · omega
    · simp [h]

theorem mapGet_buildMerged (series : List (List (ℕ × ℚ))) (d : ℕ) :
    mapGet (buildMerged series) d = (sumAt series d, countAt series d) := by
  suffices h : ∀ (m : List (ℕ × ℚ × ℕ)),
      mapGet (series.foldl (fun m s => s.foldl (fun m p => upsert m p.1 p.2) m) m) d =
        ((mapGet m d).1 + sumAt series d, (mapGet m d).2 + countAt series d) by
    have := h []
    simpa [buildMerged, mapGet] using this
  induction series with
  | nil => intro m; simp [sumAt, countAt]
  | cons s t ih =>
    intro m
    rw [List.foldl_cons, ih, mapGet_foldl_one]
    simp only [sumAt, countAt, List.map_cons, List.sum_cons, Prod.ext_iff]
    constructor
    · show (mapGet m d).1 + sumListAt s d + _ = _
      ring
    · show (mapGet m d).2 + countListAt s d + _ = _
      omega

theorem mem_insertAsc {x y : ℕ} {l : List ℕ} : y ∈ insertAsc x l ↔ y = x ∨ y ∈ l := by
  induction l with
  | nil => simp [insertAsc]
  | cons h t ih =>
    by_cases hc : x ≤ h
    · simp [insertAsc, hc]
    · simp [insertAsc, hc, ih]
      tauto

theorem mem_sortAsc {x : ℕ} {l : List ℕ} : x ∈ sortAsc l ↔ x ∈ l := by
  induction l with
  | nil => simp [sortAsc]
  | cons h t ih =>
    simp only [sortAsc, List.foldr_cons] at ih ⊢
    rw [mem_insertAsc, ih]
    simp

theorem lookup_map_self (l : List ℕ) (f : ℕ → ℚ) (d : ℕ) (h : d ∈ l) :
    List.lookup d (l.map (fun x => (x, f x))) = some (f d) := by
  induction l with
  | nil => simp at h
  | cons x t ih =>
    rcases List.mem_cons.mp h with h1 | h1
    · subst h1
      simp [List.lookup]
    · by_cases h2 : d = x
      · subst h2
        simp [List.lookup]
      · have hbeq : (d == x) = false := beq_eq_false_iff_ne.mpr h2
        simp [List.lookup, hbeq, ih h1]

theorem clampDaily_nonneg (h : ℚ) : 0 ≤ clampDaily h :=
  round1_nonneg (le_max_left 0 _)

theorem chillDeltaDailySeries_nonneg (cap : ℤ) (rs : List Reading) :
    ∀ p ∈ chillDeltaDailySeries cap rs, 0 ≤ p.2 := by
  intro p hp
  simp only [chillDeltaDailySeries, List.mem_map] at hp
  obtain ⟨d, _, rfl⟩ := hp
  exact clampDaily_nonneg _

theorem chillFixedDailySeries_nonneg (hps : ℚ) (rs : List Reading) :
    ∀ p ∈ chillFixedDailySeries hps rs, 0 ≤ p.2 := by
  intro p hp
  simp only [chillFixedDailySeries, List.mem_map] at hp
  obtain ⟨d, _, rfl⟩ := hp
  exact clampDaily_nonneg _

theorem utahDailySeries_nonneg (sm : ℚ) (rs : List Reading) :
    ∀ p ∈ utahDailySeries sm false rs, 0 ≤ p.2 := by
  intro p hp
  simp only [utahDailySeries, List.mem_map, Bool.false_eq_true, if_false] at hp
  obtain ⟨d, _, rfl⟩ := hp
  exact le_max_left 0 _

theorem sumAt_nonneg (series : List (List (ℕ × ℚ))) (d : ℕ)
    (h : ∀ s ∈ series, ∀ p ∈ s, 0 ≤ p.2) : 0 ≤ sumAt series d := by
  apply List.sum_nonneg
  intro x hx
  simp only [List.mem_map] at hx
  obtain ⟨s, hs, rfl⟩ := hx
  apply List.sum_nonneg
  intro y hy
  simp only [sumListAt, List.mem_map, List.mem_filter] at hy
  obtain ⟨p, ⟨hp, _⟩, rfl⟩ := hy
  exact h s hs p hp

theorem mergeSumDaily_nonneg (series : List (List (ℕ × ℚ)))
    (h : ∀ s ∈ series, ∀ p ∈ s, 0 ≤ p.2) :
    ∀ p ∈ mergeSumDaily series, 0 ≤ p.2 := by
  intro p hp
  simp only [mergeSumDaily, List.mem_map] at hp
  obtain ⟨d, _, rfl⟩ := hp
  refine round1_nonneg ?_
  rw [mapGet_buildMerged]
  exact sumAt_nonneg series d h

theorem mergeMeanDaily_nonneg (series : List (List (ℕ × ℚ)))
    (h : ∀ s ∈ series, ∀ p ∈ s, 0 ≤ p.2) :
    ∀ p ∈ mergeMeanDaily series, 0 ≤ p.2 := by
  intro p hp
  simp only [mergeMeanDaily, List.mem_map] at hp
  obtain ⟨d, _, rfl⟩ := hp
  refine round1_nonneg ?_
  rw [mapGet_buildMerged]
  apply div_nonneg (sumAt_nonneg series d h)
  exact le_trans zero_le_one (le_max_left 1 _)

theorem cumulateFrom_props (l : List (ℕ × ℚ)) :
    ∀ (c : ℚ), (∃ k : ℤ, c = (k : ℚ) / 10) → (∀ p ∈ l, 0 ≤ p.2) →
      List.Chain' (fun a b => a.2.2 ≤ b.2.2) (cumulateFrom c l) ∧
      (∀ x ∈ (cumulateFrom c l).head?, c ≤ x.2.2) := by
  induction l with
  | nil => intro c _ _; simp [cumulateFrom]
  | cons p t ih =>
    intro c hc hl
    obtain ⟨d, v⟩ := p
    have hv : (0 : ℚ) ≤ v := hl (d, v) (by simp)
    have hstep : c ≤ round1 (c + v) := round1_add_nonneg hc hv
    have hrec := ih (round1 (c + v)) (round1_is_tenth _)
      (fun q hq => hl q (List.mem_cons_of_mem _ hq))
    constructor
    · simp only [cumulateFrom]
      exact List.chain'_cons'.mpr ⟨fun y hy => hrec.2 y hy, hrec.1⟩
    · intro x hx
      simp only [cumulateFrom, List.head?_cons, Option.mem_def, Option.some.injEq] at hx
      subst hx
      exact hstep

theorem cumulate_chain (l : List (ℕ × ℚ)) (h : ∀ p ∈ l, 0 ≤ p.2) :
    List.Chain' (fun a b => a.2.2 ≤ b.2.2) (cumulate l) :=
  (cumulateFrom_props l 0 ⟨0, by norm_num⟩ h).1

theorem get_zip_eq {α β : Type} (l1 : List α) (l2 : List β) :
    ∀ (i : ℕ) (a : α) (b : β), l1.get? i = some a → l2.get? i = some b →
      (l1.zip l2).get? i = some (a, b) := by
  induction l1 generalizing l2 with
  | nil => intro i a b h _; simp at h
  | cons x t ih =>
    intro i a b h1 h2
    cases l2 with
    | nil => simp at h2
    | cons y u =>
      cases i with
      | zero =>
        simp only [List.get?_cons_zero, Option.some.injEq] at h1 h2
        simp [List.zip_cons_cons, h1, h2]
      | succ j =>
        simp only [List.get?_cons_succ] at h1 h2 ⊢
        simp only [List.zip_cons_cons, List.get?_cons_succ]
        exact ih u j a b h1 h2

theorem lagDeltas_get_succ (rs : List Reading) (i : ℕ) (r p : Reading)
    (h1 : rs.get? (i + 1) = some r) (h2 : rs.get? i = some p) :
    (lagDeltas rs).get? (i + 1) = some (r.1, r.2, some ((r.1 : ℤ) - (p.1 : ℤ))) := by
  cases rs with
  | nil => simp at h1
  | cons r0 rest =>
    have h1a : rest.get? i = some r := by simpa using h1
    have hz : (rest.zip (r0 :: rest)).get? i = some (r, p) := get_zip_eq _ _ i r p h1a h2
    simp only [lagDeltas, List.get?_cons_succ]
    rw [List.get?_map, hz]
    rfl

theorem lagDeltas_get_zero (rs : List Reading) (r : Reading) (h : rs.get? 0 = some r) :
    (lagDeltas rs).get? 0 = some (r.1, r.2, none) := by
  cases rs with
  | nil => simp at h
  | cons r0 rest =>
    simp only [List.get?_cons_zero, Option.some.injEq] at h
    subst h
    simp [lagDeltas]

/-- C3: the claim says every route filters readings against the
half-open interval `[start 00:00:00, (end+1 day) 00:00:00)`, so that a
reading at `end 23:59:59` is included and one at `(end+1) 00:00:00` is
excluded.  The GDD route of `src/unnamed/part_000` and the Chill
delta/fixed route do exactly that (`halfOpenFilter`), but the Utah
chill-hours route and `src/app/api/farms/[farmId]/gdd/route.ts` use
`BETWEEN start AND end`, whose upper bound is `end 00:00:00`: evaluated
for the range day 10..day 20, the reading at day-20 23:59:59 passes the
half-open filter but fails the BETWEEN filter. -/
theorem c3_range_bound_filters :
    halfOpenFilter 10 20 (20 * 86400 + 86399) = true ∧
    halfOpenFilter 10 20 (21 * 86400) = false ∧
    betweenFilter 10 20 (20 * 86400 + 86399) = false ∧
    betweenFilter 10 20 (20 * 86400) = true := by decide

/-- C8: the claim says the GDD endpoint rejects non-finite `baseTemp`
and malformed custom dates with a client error.  The route in
`src/unnamed/part_000` does (`gddValidate` returns 400 on both), but the
GDD route in `src/app/api/farms/[farmId]/gdd/route.ts` accepts
`baseTemp=abc` (`.ok none` — `Number("abc") = NaN` flows on with no
finiteness check and no error). -/
theorem c8_gdd_validation :
    gddSimpleValidate "Casa_Olmo" (some "abc") = .ok none ∧
    gddValidate ⟨"Casa_Olmo", some "abc", none, none, none⟩ = .error 400 ∧
    gddValidate ⟨"Casa_Olmo", none, some "custom", some "2024-1-01", some "2024-01-02"⟩ =
      .error 400 ∧
    gddValidate ⟨"Casa_Olmo", none, some "custom", some "2024-01-01", none⟩ = .error 400 :=
  ⟨rfl, rfl, rfl, rfl⟩

/-- C10: the effective sampling parameters are always clamped into
range and malformed values never error, but an **absent**
`sampleMinutes` yields 1, not the documented default 10
(`Number(null) = 0`, clamped up to 1): `safeSampleMinutes none = 1`,
while an absent `maxGapMinutes` does fall back to 60 (`safeInt` has the
`!raw` guard that `safeSampleMinutes` lacks). -/
theorem c10_sampling_bounds :
    safeSampleMinutes none = 1 ∧
    safeInt none 60 5 240 = 60 ∧
    (∀ raw : Option String, 5 ≤ safeInt raw 60 5 240 ∧ safeInt raw 60 5 240 ≤ 240) ∧
    (∀ raw : Option String, 1 ≤ safeSampleMinutes raw ∧ safeSampleMinutes raw ≤ 60) := by
  refine ⟨by decide, by decide, ?_, ?_⟩
  · intro raw
    rcases raw with _ | s
    · constructor <;> norm_num [safeInt]
    · by_cases hs : s = ""
      · constructor <;> norm_num [safeInt, hs]
      · cases h : jsNumber s
        · constructor <;> simp [safeInt, hs, h]
        · constructor
          · simp only [safeInt, hs, h, if_neg]
            exact le_trans (by norm_num) (le_max_left _ _)
          · simp only [safeInt, hs, h, if_neg]
            exact max_le (by norm_num) (le_trans (min_le_left _ _) (by norm_num))
  · intro raw
    rcases raw with _ | s
    · constructor <;> decide
    · cases h : jsNumber s
      · constructor <;> simp [safeSampleMinutes, h]
      · constructor
        · simp only [safeSampleMinutes, h]
          exact le_max_left _ _
        · simp only [safeSampleMinutes, h]
          exact max_le (by norm_num) (min_le_left _ _)

/-- C1 (counterexample): the claim says the merged farm series assigns
each date the arithmetic **mean** in both the GDD and the Chill
computations; but the Chill delta/fixed route (`src/unnamed/part_001`)
merges by **sum**: sensors reporting 2 and 6 for the same date merge to
8, not to the mean 4. -/
theorem c1_chill_merge_counterexample :
    mergeSumDaily [[(0, 2)], [(0, 6)]] = [(0, 8)] ∧ ((2 : ℚ) + 6) / 2 ≠ 8 := by
  constructor
  · norm_num [mergeSumDaily, buildMerged, upsert, mapGet, mapKeys, sortAsc, insertAsc,
      round1]
  · norm_num

/-- C1 (amended): for every date present in the merge, the GDD routes
and the Utah chill route (`mergeMeanDaily`) assign the 1-decimal-rounded
arithmetic mean (total over the sensor entries for that date divided by
their number), while the Chill delta/fixed route (`mergeSumDaily`)
assigns the 1-decimal-rounded **sum** of those entries. -/
theorem c1_merge_semantics (series : List (List (ℕ × ℚ))) (d : ℕ)
    (h : d ∈ mapKeys (buildMerged series)) :
    List.lookup d (mergeMeanDaily series) =
      some (round1 (sumAt series d / max 1 ((countAt series d : ℚ)))) ∧
    List.lookup d (mergeSumDaily series) = some (round1 (sumAt series d)) := by
  have hmem : d ∈ sortAsc (mapKeys (buildMerged series)) := mem_sortAsc.mpr h
  constructor
  · have hl := lookup_map_self (sortAsc (mapKeys (buildMerged series)))
      (fun x => round1 ((mapGet (buildMerged series) x).1 /
        max 1 (((mapGet (buildMerged series) x).2 : ℚ)))) d hmem
    simpa [mergeMeanDaily, mapGet_buildMerged] using hl
  · have hl := lookup_map_self (sortAsc (mapKeys (buildMerged series)))
      (fun x => round1 (mapGet (buildMerged series) x).1) d hmem
    simpa [mergeSumDaily, mapGet_buildMerged] using hl

/-- Witness for `c1_merge_semantics` at the two-sensor example. -/
theorem c1_merge_semantics_witness :
    0 ∈ mapKeys (buildMerged [[(0, 2)], [(0, 6)]]) ∧
    (List.lookup 0 (mergeMeanDaily [[(0, 2)], [(0, 6)]]) =
        some (round1 (sumAt [[(0, 2)], [(0, 6)]] 0 /
          max 1 ((countAt [[(0, 2)], [(0, 6)]] 0 : ℚ)))) ∧
      List.lookup 0 (mergeSumDaily [[(0, 2)], [(0, 6)]]) =
        some (round1 (sumAt [[(0, 2)], [(0, 6)]] 0))) :=
  ⟨by norm_num [mapKeys, buildMerged, upsert],
   c1_merge_semantics [[(0, 2)], [(0, 6)]] 0 (by norm_num [mapKeys, buildMerged, upsert])⟩

/-- C2: in the Chill "delta" model, a reading in the inclusive band
`[0, 7.2]` °C contributes `min(max(delta_seconds, 0), maxGapSeconds)`
seconds to its day, where `delta_seconds` is the time since the
immediately preceding reading; the first reading contributes 0; and a
5 °C reading after a 5-hour gap with `maxGapMinutes = 60` (cap 3600 s)
contributes exactly 3600 s, making that day's series value 1.0 h. -/
theorem c2_delta_contribution :
    (∀ (rs : List Reading) (cap : ℤ) (i : ℕ) (r p : Reading),
        rs.get? (i + 1) = some r → rs.get? i = some p → 0 ≤ r.2 → r.2 ≤ 7.2 →
        deltaContribAt cap rs (i + 1) = min (max ((r.1 : ℤ) - (p.1 : ℤ)) 0) cap) ∧
    (∀ (rs : List Reading) (cap : ℤ) (r : Reading), 0 ≤ cap → rs.get? 0 = some r →
        deltaContribAt cap rs 0 = 0) ∧
    deltaDaySeconds 3600 [(0, 10), (18000, 5)] 0 = 3600 ∧
    chillDeltaDailySeries 3600 [(0, 10), (18000, 5)] = [(0, 1)] := by
  refine ⟨?_, ?_, ?_, ?_⟩
  · intro rs cap i r p h1 h2 hb1 hb2
    rw [deltaContribAt, lagDeltas_get_succ rs i r p h1 h2]
    simp [deltaContribution, hb1, hb2]
  · intro rs cap r hcap h
    rw [deltaContribAt, lagDeltas_get_zero rs r h]
    simp only [deltaContribution, Option.getD_none]
    split_ifs
    · simp [min_eq_left hcap]
    · rfl
  · simp only [deltaDaySeconds, lagDeltas, List.zip_cons_cons, List.zip_nil_right,
      List.map_cons, List.map_nil, dayOf]
    norm_num [deltaContribution]
  · have hd : deltaDaySeconds 3600 [(0, 10), (18000, 5)] 0 = 3600 := by
      simp only [deltaDaySeconds, lagDeltas, List.zip_cons_cons, List.zip_nil_right,
        List.map_cons, List.map_nil, dayOf]
      norm_num [deltaContribution]
    have hdays : daysOf [(0, 10), (18000, 5)] = [0] := by
      norm_num [daysOf, dayOf, sortAsc, insertAsc]
    simp only [chillDeltaDailySeries, hdays, List.map_cons, List.map_nil, hd]
    norm_num [clampDaily, round1, min_def, max_def]

/-- Witness for `c2_delta_contribution` at the 5-hour-gap example. -/
theorem c2_delta_contribution_witness :
    deltaContribAt 3600 [(0, 10), (18000, 5)] 1 =
      min (max ((18000 : ℤ) - (0 : ℤ)) 0) 3600 ∧
    deltaContribAt 3600 [(0, 10), (18000, 5)] 0 = 0 :=
  ⟨c2_delta_contribution.1 [(0, 10), (18000, 5)] 3600 0 (18000, 5) (0, 10) rfl rfl
      (by norm_num) (by norm_num),
   c2_delta_contribution.2.1 [(0, 10), (18000, 5)] 3600 (0, 10) (by norm_num) rfl⟩

/-- C4: with the defaults (Chill delta/fixed daily values clamped to
`[0, 24]` and rounded, Utah daily values clamped to 0 when
`allowNegative = false`), the rounded running cumulative of every
farm-level Chill series is non-decreasing. -/
theorem c4_cumulative_monotone (sensors : List (List Reading)) (cap : ℤ) (hps sm : ℚ) :
    List.Chain' (fun a b => a.2.2 ≤ b.2.2) (chillDeltaFarmSeries cap sensors) ∧
    List.Chain' (fun a b => a.2.2 ≤ b.2.2) (chillFixedFarmSeries hps sensors) ∧
    List.Chain' (fun a b => a.2.2 ≤ b.2.2) (utahFarmSeries sm false sensors) := by
  refine ⟨cumulate_chain _ ?_, cumulate_chain _ ?_, cumulate_chain _ ?_⟩
  · apply mergeSumDaily_nonneg
    intro s hs
    simp only [List.mem_map] at hs
    obtain ⟨rs, _, rfl⟩ := hs
    exact chillDeltaDailySeries_nonneg cap rs
  · apply mergeSumDaily_nonneg
    intro s hs
    simp only [List.mem_map] at hs
    obtain ⟨rs, _, rfl⟩ := hs
    exact chillFixedDailySeries_nonneg hps rs
  · apply mergeMeanDaily_nonneg
    intro s hs
    simp only [List.mem_map] at hs
    obtain ⟨rs, _, rfl⟩ := hs
    exact utahDailySeries_nonneg sm rs

/-- C5: a sensor whose columns match a soil signal is skipped with
reason `"sensor_soil_or_conductivity"` and contributes no series,
unless its name is in the allowlist (default `["Parcela 4.2"]`), in
which case it is not soil-skipped and is flagged
`includedByException`. -/
theorem c5_soil_exclusion :
    (∀ (allow : List String) (name : String) (cols : List String) (cap : ℤ)
        (rs : List Reading),
        isSoilSensorByColumns cols = true →
          ((isAllowedSoilSensor allow name = false →
              chillProcessSensor allow name cols cap rs =
                ⟨some "sensor_soil_or_conductivity", true, false, none⟩) ∧
            (isAllowedSoilSensor allow name = true →
              (chillProcessSensor allow name cols cap rs).skippedReason ≠
                  some "sensor_soil_or_conductivity" ∧
                (chillProcessSensor allow name cols cap rs).includedByException = true))) ∧
    getAllowedSoilSensorsAllowlist none = ["Parcela 4.2"] := by
  refine ⟨?_, rfl⟩
  intro allow name cols cap rs hsoil
  constructor
  · intro hnal
    simp [chillProcessSensor, hsoil, hnal]
  · intro hal
    simp only [chillProcessSensor, hsoil, hal]
    cases h1 : pickColumn cols tempCandidates <;>
      cases h2 : pickColumn cols dateCandidates <;>
        simp [h1, h2]

/-- Witness for `c5_soil_exclusion`: a conductivity/soil-moisture sensor
is skipped when not allowlisted, and not soil-skipped (with the
exception flag set) when its name is the default exception. -/
theorem c5_soil_exclusion_witness :
    isSoilSensorByColumns ["conductivity", "soil_moisture"] = true ∧
    isAllowedSoilSensor ["Parcela 4.2"] "Sensor EC Norte" = false ∧
    chillProcessSensor ["Parcela 4.2"] "Sensor EC Norte"
        ["conductivity", "soil_moisture"] 3600 [] =
      ⟨some "sensor_soil_or_conductivity", true, false, none⟩ ∧
    isAllowedSoilSensor ["Parcela 4.2"] "Parcela 4.2" = true ∧
    ((chillProcessSensor ["Parcela 4.2"] "Parcela 4.2"
          ["conductivity", "soil_moisture"] 3600 []).skippedReason ≠
        some "sensor_soil_or_conductivity" ∧
      (chillProcessSensor ["Parcela 4.2"] "Parcela 4.2"
          ["conductivity", "soil_moisture"] 3600 []).includedByException = true) :=
  ⟨by decide, by decide,
   (c5_soil_exclusion.1 ["Parcela 4.2"] "Sensor EC Norte"
      ["conductivity", "soil_moisture"] 3600 [] (by decide)).1 (by decide),
   by decide,
   (c5_soil_exclusion.1 ["Parcela 4.2"] "Parcela 4.2"
      ["conductivity", "soil_moisture"] 3600 [] (by decide)).2 (by decide)⟩

/-- C6: every day with at least one reading gets daily GDD
`round1(max 0 ((tmin + tmax)/2 - base))` where tmin/tmax are that day's
extremes; in particular tmin 2 / tmax 10 / base 7 gives 0, and
tmin 10 / tmax 20 / base 7 gives 8.0 (also through `calculateGDD`). -/
theorem c6_gdd_daily :
    (∀ (rs : List Reading) (base : ℚ) (d : ℕ), (∃ r ∈ rs, dayOf r.1 = d) →
        List.lookup d (gddDailySeries rs base) =
          some (round1 (max 0
            ((listMin (dayTemps rs d) + listMax (dayTemps rs d)) / 2 - base)))) ∧
    gddDailyValue 2 10 7 = 0 ∧ gddDailyValue 10 20 7 = 8 ∧
    calculateGDD [2] [10] 7 = 0 ∧ calculateGDD [10] [20] 7 = 8 := by
  refine ⟨?_, ?_, ?_, ?_, ?_⟩
  · intro rs base d hd
    have hmem : d ∈ daysOf rs := by
      simp only [daysOf, mem_sortAsc, List.mem_dedup, List.mem_map]
      obtain ⟨r, hr, hrd⟩ := hd
      exact ⟨r, hr, hrd⟩
    have hl := lookup_map_self (daysOf rs)
      (fun x => gddDailyValue (listMin (dayTemps rs x)) (listMax (dayTemps rs x)) base)
      d hmem
    simpa [gddDailySeries, gddDailyValue] using hl
  · norm_num [gddDailyValue, round1]
  · norm_num [gddDailyValue, round1]
  · norm_num [calculateGDD, round1]
  · norm_num [calculateGDD, round1]

/-- Witness for `c6_gdd_daily` on a one-day reading list. -/
theorem c6_gdd_daily_witness :
    List.lookup 0 (gddDailySeries [(0, 2), (3600, 10)] 7) =
      some (round1 (max 0 ((listMin (dayTemps [(0, 2), (3600, 10)] 0) +
        listMax (dayTemps [(0, 2), (3600, 10)] 0)) / 2 - 7))) :=
  c6_gdd_daily.1 [(0, 2), (3600, 10)] 7 0 ⟨(0, 2), by norm_num, by norm_num [dayOf]⟩

/-- C7: the Utah unit rate is the seven-band step function of the claim
(values 0, 0.5, 1, 0.5, 0, −0.5, −1 at thresholds
1.4/2.4/9.1/12.4/15.9/18.0 °C, upper boundaries exclusive); 9.0 °C gives
1 and 9.1 °C gives 0.5; the per-sample contribution scales the rate by
`sampleMinutes / 60`. -/
theorem c7_utah_bands :
    (∀ tc : ℚ, utahHourlyUnits tc = utahUnitsSpec tc) ∧
    (∀ tc m : ℚ, utahUnitsForSample tc m = utahHourlyUnits tc * (m / 60)) ∧
    utahHourlyUnits 9 = 1 ∧ utahHourlyUnits 9.1 = 0.5 := by
  refine ⟨?_, fun tc m => rfl, by norm_num [utahHourlyUnits], by norm_num [utahHourlyUnits]⟩
  intro tc
  unfold utahHourlyUnits utahUnitsSpec
  by_cases h1 : tc < 1.4
  · simp [h1]
  · have g1 : 1.4 ≤ tc := not_lt.mp h1
    by_cases h2 : tc < 2.4
    · simp [h1, h2, g1]
    · have g2 : 2.4 ≤ tc := not_lt.mp h2
      by_cases h3 : tc < 9.1
      · simp [h1, h2, h3, g2]
      · have g3 : 9.1 ≤ tc := not_lt.mp h3
        by_cases h4 : tc < 12.4
        · simp [h1, h2, h3, h4, g3]
        · have g4 : 12.4 ≤ tc := not_lt.mp h4
          by_cases h5 : tc < 15.9
          · simp [h1, h2, h3, h4, h5, g4]
          · have g5 : 15.9 ≤ tc := not_lt.mp h5
            by_cases h6 : tc < 18.0
            · simp [h1, h2, h3, h4, h5, h6, g5]
            · simp [h1, h2, h3, h4, h5, h6]

/-- C9 (counterexample): the routes' `pickColumn` selects the date
column with candidate order `["datetime","fecha","timestamp","date",
"time"]`, so for columns `["fecha","timestamp"]` it picks `fecha`,
whereas the claimed priority list
`["datetime","timestamp","date","fecha","time"]` (`specDatePick`) picks
`timestamp`. -/
theorem c9_date_priority_counterexample :
    pickColumn ["fecha", "timestamp"] dateCandidates = some "fecha" ∧
    specDatePick ["fecha", "timestamp"] = some "timestamp" ∧
    ("fecha" : String) ≠ "timestamp" := ⟨by decide, by decide, by decide⟩

/-- C9 (amended): `pickDateColumn` of the sensor-data route agrees with
the claimed selection whenever some column is a case-insensitive exact
match for an entry of the priority list; but the Chill/GDD routes'
`pickColumn` uses candidate order `["datetime","fecha","timestamp",
"date","time"]` and, within a candidate, makes no distinction between
exact and substring matches (`my_datetime` beats the exact `datetime`);
`pickDateColumn`'s substring fallback is ordered by column, not by token
(`x_fecha` beats `x_timestamp`). -/
theorem c9_date_priority_amended :
    (∀ (cols : List String) (c : String), dateExactPick cols = some c →
        pickDateColumn cols = some c ∧ specDatePick cols = some c) ∧
    pickColumn ["fecha", "timestamp"] dateCandidates = some "fecha" ∧
    pickColumn ["my_datetime", "datetime"] dateCandidates = some "my_datetime" ∧
    pickDateColumn ["x_fecha", "x_timestamp"] = some "x_fecha" := by
  refine ⟨?_, by decide, by decide, by decide⟩
  intro cols c h
  constructor <;> simp [pickDateColumn, specDatePick, h]

/-- Witness for `c9_date_priority_amended` on a single exact match. -/
theorem c9_date_priority_amended_witness :
    dateExactPick ["timestamp"] = some "timestamp" ∧
    (pickDateColumn ["timestamp"] = some "timestamp" ∧
      specDatePick ["timestamp"] = some "timestamp") :=
  ⟨by decide, c9_date_priority_amended.1 ["timestamp"] "timestamp" (by decide)⟩
